import Mathlib

/-!
Verification development for the APIKernal path-query engine
(`APIKernal.py`).  The pure core (`parse_response` and its inner
`resolve_path`) is embedded shallowly: Python strings become `List Char`,
decoded JSON values become the inductive `Value`, and a Python exception
escaping a frame becomes `Except.error` carrying the exception class.
The network layer (`request_api`, `handle_response`) performs I/O and is
out of scope here, matching the spec's §1 scope cut.
-/

namespace APIKernal

/-- Exception classes that the resolution core can raise or catch.
Only these four occur in `resolve_path`'s `try/except` clauses or in the
builtin operations it invokes. -/
inductive PyErr where
  | valueError
  | typeError
  | indexError
  | keyError
deriving DecidableEq, Repr

/-- Whitespace characters recognised by Python's `str.strip()` (ASCII part). -/
def pyIsSpace (c : Char) : Bool :=
  c == ' ' || c == '\t' || c == '\n' || c == '\r' || c == '\x0b' || c == '\x0c'

/-- Python `s.strip()`: remove leading and trailing whitespace. -/
def pyStrip (s : List Char) : List Char :=
  ((s.dropWhile pyIsSpace).reverse.dropWhile pyIsSpace).reverse

/-- Python `s.isdigit()`: nonempty and all characters are digits. -/
def pyIsDigitStr (s : List Char) : Bool :=
  !s.isEmpty && s.all (·.isDigit)

/-- Numeric value of a digit string (base 10). -/
def digitsVal (s : List Char) : Nat :=
  s.foldl (fun a c => 10 * a + (c.toNat - 48)) 0

/-- Python `int(s)` on a string: strip whitespace, optional sign, digits;
`none` models a raised `ValueError`. -/
def pyInt (s : List Char) : Option Int :=
  match pyStrip s with
  | '+' :: rest => if pyIsDigitStr rest then some (digitsVal rest) else none
  | '-' :: rest => if pyIsDigitStr rest then some (-(digitsVal rest : Int)) else none
  | rest => if pyIsDigitStr rest then some (digitsVal rest) else none

/-- Python `s.split(sep)` for a one-character separator: keeps empty pieces. -/
def pySplitOn (sep : Char) : List Char → List (List Char)
  | [] => [[]]
  | c :: rest =>
    if c = sep then [] :: pySplitOn sep rest
    else
      match pySplitOn sep rest with
      | [] => [[c]]
      | h :: t => (c :: h) :: t

/-- Content captured by `(.*?)\]` starting right after a `[`: the characters
up to the first `]`, failing if a newline (which `.` does not match)
intervenes or no `]` follows. -/
def grabContent : List Char → Option (List Char)
  | [] => none
  | c :: rest =>
    if c = ']' then some []
    else if c = '\n' then none
    else (grabContent rest).map (c :: ·)

/-- Worker for `findBracket`; `pre` is the reversed prefix scanned so far. -/
def findBracketAux : List Char → List Char → Option (List Char × List Char)
  | _, [] => none
  | pre, c :: rest =>
    if c = '[' then
      match grabContent rest with
      | some content => some (pre.reverse, content)
      | none => findBracketAux (c :: pre) rest
    else findBracketAux (c :: pre) rest

/-- Python `re.search(r'\[(.*?)\]', s)`: the part of `s` before the match and the
first capture group, or `none` when the pattern does not occur. -/
def findBracket (s : List Char) : Option (List Char × List Char) :=
  findBracketAux [] s

/-- Decoded JSON values: the generic data trees `parse_response` walks.
Python `list` and `tuple` are both modelled by `arr` (JSON decoding only
produces lists); objects are insertion-ordered string-keyed entry lists. -/
inductive Value where
  | null
  | bool (b : Bool)
  | int (n : Int)
  | str (s : List Char)
  | arr (xs : List Value)
  | obj (kvs : List (List Char × Value))
deriving Repr

/-- Python `obj is None`. -/
def isNull : Value → Bool
  | .null => true
  | _ => false

/-- Python `d[k]` / `k in d` combined: first entry with the given key. -/
def dictGet : List (List Char × Value) → List Char → Option Value
  | [], _ => none
  | (k, v) :: rest, key => if k = key then some v else dictGet rest key

/-- Python `isinstance(obj, dict) and key in obj` plus the lookup. -/
def objLookup : Value → List Char → Option Value
  | .obj kvs, k => dictGet kvs k
  | _, _ => none

/-- Python `isinstance(obj, (list, tuple))`. -/
def isArr : Value → Bool
  | .arr _ => true
  | _ => false

/-- The element list of an array value (`[]` otherwise). -/
def arrElems : Value → List Value
  | .arr xs => xs
  | _ => []

/-- Handler `except (ValueError, TypeError): return None` (slice branch). -/
def catchVT : Except PyErr Value → Except PyErr Value
  | .error .valueError => .ok .null
  | .error .typeError => .ok .null
  | r => r

/-- Handler `except (ValueError, TypeError, IndexError): return None` (single index). -/
def catchVTI : Except PyErr Value → Except PyErr Value
  | .error .valueError => .ok .null
  | .error .typeError => .ok .null
  | .error .indexError => .ok .null
  | r => r

/-- Handler `except (ValueError, IndexError): return None` (regular array index). -/
def catchVI : Except PyErr Value → Except PyErr Value
  | .error .valueError => .ok .null
  | .error .indexError => .ok .null
  | r => r

/-- Python `len(obj)`: defined on sequences, strings and mappings;
`TypeError` otherwise. -/
def pyLen : Value → Except PyErr Int
  | .arr xs => .ok xs.length
  | .str s => .ok s.length
  | .obj kvs => .ok kvs.length
  | _ => .error .typeError

/-- Python `obj[i]` for an integer `i`: sequence indexing with negative
offsets; an integer key never occurs in a string-keyed mapping, hence
`KeyError`; unsubscriptable values give `TypeError`. -/
def pyGetItem (v : Value) (i : Int) : Except PyErr Value :=
  match v with
  | .arr xs =>
    let j : Int := if i < 0 then i + xs.length else i
    if 0 ≤ j then
      match xs[j.toNat]? with
      | some x => .ok x
      | none => .error .indexError
    else .error .indexError
  | .str s =>
    let j : Int := if i < 0 then i + s.length else i
    if 0 ≤ j then
      match s[j.toNat]? with
      | some c => .ok (.str [c])
      | none => .error .indexError
    else .error .indexError
  | .obj _ => .error .keyError
  | _ => .error .typeError

/-- Index stream of a normalised slice: from `lo`, stepping by `step`,
while below (above, for negative step) `hi`.  Fuel bounds the loop; any
fuel above the number of produced indices yields the same list. -/
def collectIdx (lo hi step : Int) : Nat → List Int
  | 0 => []
  | fuel + 1 =>
    if 0 < step then
      if lo < hi then lo :: collectIdx (lo + step) hi step fuel else []
    else
      if hi < lo then lo :: collectIdx (lo + step) hi step fuel else []

/-- Python sequence slicing `xs[start:stop:step]` for `step ≠ 0`, with
CPython's index clamping rules. -/
def pySliceList {α : Type} (xs : List α) (start stop step : Int) : List α :=
  let n : Int := xs.length
  let lo : Int :=
    if 0 < step then (if start < 0 then max (start + n) 0 else min start n)
    else (if start < 0 then max (start + n) (-1) else min start (n - 1))
  let hi : Int :=
    if 0 < step then (if stop < 0 then max (stop + n) 0 else min stop n)
    else (if stop < 0 then max (stop + n) (-1) else min stop (n - 1))
  (collectIdx lo hi step (xs.length + 1)).filterMap (fun i => xs[i.toNat]?)

/-- Python `obj[start:end:step]` as an element list: `ValueError` on step 0,
`TypeError` when `obj` is not sliceable (mappings included); string slices
iterate as one-character strings. -/
def pySliceItems (v : Value) (start stop step : Int) : Except PyErr (List Value) :=
  if step = 0 then .error .valueError
  else
    match v with
    | .arr xs => .ok (pySliceList xs start stop step)
    | .str s => .ok ((pySliceList s start stop step).map (fun c => .str [c]))
    | _ => .error .typeError

/-- Python `int(piece) if use else fallback`, with a parse failure raising
`ValueError` (`resolve_path` lines 59-61). -/
def boundOr (use : Bool) (piece : List Char) (fallback : Except PyErr Int) :
    Except PyErr Int :=
  if use then
    match pyInt piece with
    | some v => .ok v
    | none => .error .valueError
  else fallback

/-- The `start`/`end`/`step` extraction of the slice branch, in source
order: `start` defaults to `0`, `end` to `len(obj)` (raising `TypeError`
on unsized values), `step` to `1`. -/
def sliceBounds (obj : Value) (expr : List Char) : Except PyErr (Int × Int × Int) :=
  match boundOr (!((pySplitOn ':' expr).getD 0 []).isEmpty)
      ((pySplitOn ':' expr).getD 0 []) (.ok 0) with
  | .error e => .error e
  | .ok start =>
    match boundOr (decide (1 < (pySplitOn ':' expr).length) &&
        !((pySplitOn ':' expr).getD 1 []).isEmpty)
        ((pySplitOn ':' expr).getD 1 []) (pyLen obj) with
    | .error e => .error e
    | .ok stop =>
      match boundOr (decide (2 < (pySplitOn ':' expr).length) &&
          !((pySplitOn ':' expr).getD 2 []).isEmpty)
          ((pySplitOn ':' expr).getD 2 []) (.ok 1) with
      | .error e => .error e
      | .ok step => .ok (start, stop, step)

/-- Field descent before an index operation (`resolve_path` lines 35-39):
descend into a present object key, or into a numeric index of an array —
the latter unguarded, so an out-of-range index raises `IndexError`.
Anything else leaves the value unchanged. -/
def descend (obj : Value) (field : List Char) : Except PyErr Value :=
  if field = [] then .ok obj
  else
    match obj with
    | .obj kvs =>
      match dictGet kvs field with
      | some v => .ok v
      | none => .ok obj
    | .arr xs =>
      if pyIsDigitStr field then
        match xs[digitsVal field]? with
        | some v => .ok v
        | none => .error .indexError
      else .ok obj
    | _ => .ok obj

/-- Python `results.extend(result) if isinstance(result, list) else results.append(result)`
for one per-element result. -/
def spliceOne : Value → List Value
  | .arr ys => ys
  | r => [r]

/-- Termination weight of one segment string. -/
def segW (s : List Char) : Nat := 4 * s.length + 3

/-- Termination weight of a segment queue. -/
def SW (parts : List (List Char)) : Nat := (parts.map segW).sum

theorem SW_nil : SW [] = 0 := rfl

theorem SW_cons (p : List Char) (ps : List (List Char)) :
    SW (p :: ps) = segW p + SW ps := by
  simp [SW]

theorem SW_append (l1 l2 : List (List Char)) :
    SW (l1 ++ l2) = SW l1 + SW l2 := by
  simp [SW]

theorem pySplitOn_ne_nil (sep : Char) (s : List Char) : pySplitOn sep s ≠ [] := by
  cases s with
  | nil => simp [pySplitOn]
  | cons c rest =>
    simp only [pySplitOn]
    split
    · simp
    · split <;> simp

/-- Occurrence count of a character in a string. -/
def countCh (c : Char) : List Char → Nat
  | [] => 0
  | d :: rest => (if d = c then 1 else 0) + countCh c rest

theorem countCh_pos {c : Char} {s : List Char} (h : c ∈ s) : 0 < countCh c s := by
  induction s with
  | nil => cases h
  | cons d rest ih =>
    simp only [countCh]
    rcases List.mem_cons.mp h with h1 | h1
    · rw [if_pos h1.symm]; omega
    · have := ih h1; omega

/-- Splitting trades each separator occurrence for one unit of weight. -/
theorem SW_splitOn (sep : Char) (s : List Char) :
    SW (pySplitOn sep s) + countCh sep s = segW s := by
  induction s with
  | nil => simp [pySplitOn, SW, segW, countCh]
  | cons c rest ih =>
    by_cases hc : c = sep
    · subst hc
      simp only [pySplitOn, eq_self_iff_true, if_true, countCh, SW_cons]
      simp only [segW, List.length_cons, List.length_nil] at ih ⊢
      omega
    · simp only [pySplitOn, if_neg hc, countCh, if_neg hc]
      rcases hsplit : pySplitOn sep rest with _ | ⟨h, t⟩
      · exact absurd hsplit (pySplitOn_ne_nil sep rest)
      · rw [hsplit] at ih
        show SW ((c :: h) :: t) + (0 + countCh sep rest) = segW (c :: rest)
        simp only [SW_cons, segW, List.length_cons] at ih ⊢
        omega

/-- Splitting a segment that actually contains the separator strictly
lowers the weight of the queue. -/
theorem SW_split_lt3 {cur : List Char} {rem : List (List Char)} (h : '.' ∈ cur) :
    3 * SW (pySplitOn '.' cur ++ rem) < 3 * SW (cur :: rem) := by
  have h1 := SW_splitOn '.' cur
  have h2 := countCh_pos h
  rw [SW_append, SW_cons]
  omega

mutual

/-- Shallow embedding of the inner `resolve_path(obj, parts)` of
`parse_response` (`APIKernal.py` lines 18-98), including its exception
flow: `Except.error e` is an exception of class `e` escaping the frame. -/
def resolvePath (obj : Value) (parts : List (List Char)) : Except PyErr Value :=
  match parts with
  | [] => .ok obj
  | current :: remaining =>
    if isNull obj then .ok obj
    else
      match findBracket current with
      | some (pre, expr) =>
        match descend obj (pyStrip pre) with
        | .error e => .error e
        | .ok obj2 => applyIndex obj2 expr remaining
      | none =>
        match objLookup obj current with
        | some v => resolvePath v remaining
        | none =>
          if isArr obj && pyIsDigitStr current then
            catchVI
              (match (arrElems obj)[digitsVal current]? with
               | some v => resolvePath v remaining
               | none => .error .indexError)
          else if _h : '.' ∈ current then
            resolvePath obj (pySplitOn '.' current ++ remaining)
          else .ok .null
termination_by (3 * SW parts, 0)
decreasing_by
  all_goals
    first
    | (apply Prod.Lex.left; exact SW_split_lt3 (by assumption))
    | (apply Prod.Lex.left; simp only [SW_cons, segW]; omega)

/-- The index-operation part of a bracketed segment (`resolve_path`
lines 41-79), applied after field descent: wildcard, slice, or single
index, with the code's exact `try/except` coverage. -/
def applyIndex (obj : Value) (expr : List Char) (remaining : List (List Char)) :
    Except PyErr Value :=
  if expr = ['*'] then
    match obj with
    | .arr xs =>
      match resolveEach xs remaining with
      | .error e => .error e
      | .ok results => .ok (.arr results)
    | _ => .ok .null
  else if ':' ∈ expr then
    catchVT
      (match sliceBounds obj expr with
       | .error e => .error e
       | .ok (start, stop, step) =>
         match pySliceItems obj start stop step with
         | .error e => .error e
         | .ok items =>
           match resolveEach items remaining with
           | .error e => .error e
           | .ok results => .ok (.arr results))
  else
    catchVTI
      (match pyInt expr with
       | none => .error .valueError
       | some i =>
         match pyGetItem obj i with
         | .error e => .error e
         | .ok v => resolvePath v remaining)
termination_by (3 * SW remaining + 2, 0)
decreasing_by
  all_goals (apply Prod.Lex.left; omega)

/-- The per-element loop shared by the wildcard and slice branches:
resolve the tail against each element, splicing sequence results and
appending single results; an exception aborts the loop. -/
def resolveEach (items : List Value) (remaining : List (List Char)) :
    Except PyErr (List Value) :=
  match items with
  | [] => .ok []
  | v :: vs =>
    match resolvePath v remaining with
    | .error e => .error e
    | .ok r =>
      match resolveEach vs remaining with
      | .error e => .error e
      | .ok acc => .ok (spliceOne r ++ acc)
termination_by (3 * SW remaining + 1, items.length)
decreasing_by
  all_goals
    first
    | (apply Prod.Lex.left; omega)
    | (apply Prod.Lex.right; simp only [List.length_cons]; omega)

end

/-- Tokenization of one path string (`parse_response` line 103/107):
split on `.`, strip each piece, drop empties. -/
def tokenize (s : List Char) : List (List Char) :=
  ((pySplitOn '.' s).map pyStrip).filter (· ≠ [])

/-- The `paths` argument of `parse_response`: one path string or a list. -/
inductive PathsArg where
  | single (s : List Char)
  | many (ps : List (List Char))

/-- Shallow embedding of `parse_response(data, paths)`
(`APIKernal.py` lines 7-108): tokenize and resolve a single path, or map
the same over a list of paths, an escaping exception aborting the batch. -/
def parse_response (data : Value) : PathsArg → Except PyErr Value
  | .single s => resolvePath data (tokenize s)
  | .many ps => (ps.mapM (fun p => resolvePath data (tokenize p))).map Value.arr

/-- Character list of a string literal, for readable test data. -/
def chars (s : String) : List Char := s.toList

/-!  ## Basic facts about the resolver  -/

/-- One-level flattening of a list of per-element results: splice
sequence results, append single results. -/
def flattenOne (rs : List Value) : List Value := rs.flatMap spliceOne

theorem catchVT_vt {r : Except PyErr Value}
    (h : r = .error .valueError ∨ r = .error .typeError) : catchVT r = .ok .null := by
  rcases h with h | h <;> rw [h] <;> rfl

theorem boundOr_err {c : Bool} {p : List Char} {f : Except PyErr Int} {e : PyErr}
    (h : boundOr c p f = .error e) : e = .valueError ∨ f = .error e := by
  unfold boundOr at h
  cases c
  · exact Or.inr h
  · rcases hp : pyInt p with _ | v <;> rw [hp] at h
    · injection h with h1
      exact Or.inl h1.symm
    · exact Except.noConfusion h

theorem sliceBounds_null_err {expr : List Char} {e : PyErr}
    (h : sliceBounds .null expr = .error e) : e = .valueError ∨ e = .typeError := by
  unfold sliceBounds at h
  rcases h1 : boundOr (!((pySplitOn ':' expr).getD 0 []).isEmpty)
      ((pySplitOn ':' expr).getD 0 []) (.ok 0) with e1 | s <;> rw [h1] at h
  · injection h with h'
    subst h'
    rcases boundOr_err h1 with h' | h'
    · exact Or.inl h'
    · exact Except.noConfusion h'
  · rcases h2 : boundOr (decide (1 < (pySplitOn ':' expr).length) &&
        !((pySplitOn ':' expr).getD 1 []).isEmpty)
        ((pySplitOn ':' expr).getD 1 []) (pyLen .null) with e2 | t <;> rw [h2] at h
    · injection h with h'
      subst h'
      rcases boundOr_err h2 with h' | h'
      · exact Or.inl h'
      · injection h' with h''
        exact Or.inr h''.symm
    · rcases h3 : boundOr (decide (2 < (pySplitOn ':' expr).length) &&
          !((pySplitOn ':' expr).getD 2 []).isEmpty)
          ((pySplitOn ':' expr).getD 2 []) (.ok 1) with e3 | u <;> rw [h3] at h
      · injection h with h'
        subst h'
        rcases boundOr_err h3 with h' | h'
        · exact Or.inl h'
        · exact Except.noConfusion h'
      · exact Except.noConfusion h

/-- Resolving against no segments returns the value unchanged
(`resolve_path` line 20, first disjunct). -/
theorem resolvePath_nil (obj : Value) : resolvePath obj [] = .ok obj := by
  rw [resolvePath.eq_def]

/-- Resolving any segments against a null value returns null
(`resolve_path` line 20, second disjunct). -/
theorem resolvePath_null (parts : List (List Char)) :
    resolvePath .null parts = .ok .null := by
  rw [resolvePath.eq_def]
  cases parts <;> rfl

/-- Every index operation applied to a null value yields null: each
failure is a `ValueError`/`TypeError` its branch catches, or the wildcard
type test fails. -/
theorem applyIndex_null (expr : List Char) (rem : List (List Char)) :
    applyIndex .null expr rem = .ok .null := by
  rw [applyIndex.eq_def]
  split_ifs with h1 h2
  · rfl
  · apply catchVT_vt
    rcases hS : sliceBounds .null expr with e | ⟨s, t, u⟩
    · rcases sliceBounds_null_err hS with h' | h' <;> subst h'
      · exact Or.inl rfl
      · exact Or.inr rfl
    · by_cases hu : u = 0
      · subst hu
        exact Or.inl rfl
      · right
        show (match pySliceItems Value.null s t u with
          | .error e => (.error e : Except PyErr Value)
          | .ok items =>
            match resolveEach items rem with
            | .error e => .error e
            | .ok results => .ok (.arr results)) = .error .typeError
        simp only [pySliceItems, if_neg hu]
  · rcases hp : pyInt expr with _ | i <;> rfl

/-- The wildcard/slice element loop is the per-element resolution map
followed by one-level flattening. -/
theorem resolveEach_eq_mapM (items : List Value) (rem : List (List Char)) :
    resolveEach items rem =
      (items.mapM (fun v => resolvePath v rem)).map flattenOne := by
  induction items with
  | nil =>
    rw [resolveEach.eq_def]
    rfl
  | cons v vs ih =>
    rw [resolveEach, List.mapM_cons]
    rcases h : resolvePath v rem with e | r
    · rfl
    · rw [ih]
      rcases h2 : vs.mapM (fun v => resolvePath v rem) with e2 | rs
      · rfl
      · show Except.ok (spliceOne r ++ flattenOne rs) = _
        simp only [flattenOne, List.flatMap_cons]
        rfl

/-!  ## Test data (the spec's §8 examples)  -/

/-- Value `{"a": {"b": 5}}`. -/
def exAB : Value := .obj [(chars "a", .obj [(chars "b", .int 5)])]

/-- Value `[10, 20, 30, 40, 50]`. -/
def ex5 : Value := .arr [.int 10, .int 20, .int 30, .int 40, .int 50]

/-- Value `[{"x": 1}, {"x": 2}]`. -/
def exXs : Value := .arr [.obj [(chars "x", .int 1)], .obj [(chars "x", .int 2)]]

/-- Value `{"a": 1, "b": 2}`. -/
def exBatch : Value := .obj [(chars "a", .int 1), (chars "b", .int 2)]

/-- Value `[{"x": 1}, {}]`: the second element lacks the key. -/
def exHole : Value := .arr [.obj [(chars "x", .int 1)], .obj []]

/-!  ## Tokenizer facts  -/

theorem pySplitOn_cons_ne {sep c : Char} {rest : List Char} (hne : ¬c = sep) :
    ∃ h1 t1, pySplitOn sep rest = h1 :: t1 ∧
      pySplitOn sep (c :: rest) = (c :: h1) :: t1 := by
  rcases hsplit : pySplitOn sep rest with _ | ⟨h1, t1⟩
  · exact absurd hsplit (pySplitOn_ne_nil _ _)
  · refine ⟨h1, t1, rfl, ?_⟩
    simp only [pySplitOn, if_neg hne, hsplit]

theorem pySplitOn_space {s : List Char}
    (h : ∀ c ∈ s, c = '.' ∨ pyIsSpace c = true) :
    ∀ p ∈ pySplitOn '.' s, ∀ c ∈ p, pyIsSpace c = true := by
  induction s with
  | nil =>
    intro p hp c hc
    simp only [pySplitOn, List.mem_singleton] at hp
    subst hp
    cases hc
  | cons d rest ih =>
    have hrest : ∀ c ∈ rest, c = '.' ∨ pyIsSpace c = true :=
      fun c hc => h c (List.mem_cons_of_mem d hc)
    intro p hp
    by_cases hdot : d = '.'
    · rw [show pySplitOn '.' (d :: rest) = [] :: pySplitOn '.' rest by
        simp only [pySplitOn, if_pos hdot]] at hp
      rcases List.mem_cons.mp hp with rfl | hp'
      · intro c hc; cases hc
      · exact ih hrest p hp'
    · have hds : pyIsSpace d = true := by
        rcases h d (List.mem_cons_self d rest) with h1 | h1
        · exact absurd h1 hdot
        · exact h1
      rcases pySplitOn_cons_ne hdot with ⟨h1, t1, hsplit, hcons⟩
      rw [hcons] at hp
      rcases List.mem_cons.mp hp with rfl | hp'
      · intro c hc
        rcases List.mem_cons.mp hc with rfl | hc'
        · exact hds
        · exact ih hrest h1 (hsplit ▸ List.mem_cons_self _ _) c hc'
      · exact ih hrest p (hsplit ▸ List.mem_cons_of_mem _ hp')

theorem pyStrip_all_space {p : List Char} (h : ∀ c ∈ p, pyIsSpace c = true) :
    pyStrip p = [] := by
  unfold pyStrip
  rw [List.dropWhile_eq_nil_iff.mpr h]
  rfl

/-- A path of dots and whitespace only has no segments. -/
theorem tokenize_trivial {s : List Char}
    (h : ∀ c ∈ s, c = '.' ∨ pyIsSpace c = true) : tokenize s = [] := by
  have hall := pySplitOn_space h
  unfold tokenize
  rw [List.filter_eq_nil_iff]
  intro q hq
  rcases List.mem_map.mp hq with ⟨p, hp, rfl⟩
  simp [pyStrip_all_space (hall p hp)]

theorem pyIsDigitStr_no_dot {cur : List Char} (h : '.' ∈ cur) :
    pyIsDigitStr cur = false := by
  cases hb : pyIsDigitStr cur
  · rfl
  · exfalso
    simp only [pyIsDigitStr, Bool.and_eq_true, List.all_eq_true] at hb
    exact absurd (hb.2 '.' h) (by decide)

/-- When every dot-piece is nonempty and free of surrounding whitespace,
tokenizing a segment is exactly splitting it on dots. -/
theorem tokenize_of_clean {cur : List Char}
    (hp : ∀ p ∈ pySplitOn '.' cur, p ≠ [] ∧ pyStrip p = p) :
    tokenize cur = pySplitOn '.' cur := by
  unfold tokenize
  rw [List.map_congr_left (g := id) (fun a ha => (hp a ha).2), List.map_id]
  rw [List.filter_eq_self]
  intro a ha
  simpa using (hp a ha).1

/-!  ## One-step resolution facts  -/

theorem isNull_eq_false {obj : Value} (h : obj ≠ .null) : isNull obj = false := by
  cases obj
  · exact absurd rfl h
  all_goals rfl

/-- The silent no-op of field descent: when the value is not an object
containing the field and not an array paired with a digit-string field,
descent leaves the value unchanged. -/
theorem descend_noop {obj : Value} {field : List Char}
    (hobj : ∀ kvs, obj = .obj kvs → dictGet kvs field = none)
    (harr : ∀ xs, obj = .arr xs → pyIsDigitStr field = false) :
    descend obj field = .ok obj := by
  unfold descend
  by_cases h0 : field = []
  · rw [if_pos h0]
  · rw [if_neg h0]
    cases obj with
    | obj kvs => simp only [hobj kvs rfl]
    | arr xs => simp only [harr xs rfl, Bool.false_eq_true, if_false]
    | null => rfl
    | bool b => rfl
    | int n => rfl
    | str s => rfl

/-- The defensive re-split step (`resolve_path` lines 93-96): a dotted
bracket-free segment that fails direct matching is split on dots and
its pieces are prepended to the queue. -/
theorem resolvePath_resplit {obj : Value} {cur : List Char} {rest : List (List Char)}
    (hnn : isNull obj = false) (hb : findBracket cur = none)
    (hlookup : objLookup obj cur = none)
    (hdig : (isArr obj && pyIsDigitStr cur) = false)
    (hdot : '.' ∈ cur) :
    resolvePath obj (cur :: rest) = resolvePath obj (pySplitOn '.' cur ++ rest) := by
  conv_lhs => rw [resolvePath.eq_def]
  simp only [hnn, hb, hlookup, hdig, Bool.false_eq_true, if_false, dif_pos hdot]

/-!  ## Full-range slice facts  -/

theorem collect_get {α : Type} (xs : List α) :
    ∀ (fuel k : Nat), xs.length - k < fuel →
      (collectIdx k xs.length 1 fuel).filterMap (fun i => xs[i.toNat]?) =
        xs.drop k := by
  intro fuel
  induction fuel with
  | zero => intro k h; omega
  | succ f ih =>
    intro k h
    rw [collectIdx, if_pos (by norm_num : (0:Int) < 1)]
    by_cases hk : (k : Int) < (xs.length : Int)
    · rw [if_pos hk]
      have hk' : k < xs.length := by exact_mod_cast hk
      simp only [List.filterMap_cons, Int.toNat_natCast,
        List.getElem?_eq_getElem hk']
      rw [show ((k : Int) + 1) = ((k + 1 : Nat) : Int) by push_cast; ring]
      rw [ih (k + 1) (by omega)]
      rw [List.drop_eq_getElem_cons hk']
    · rw [if_neg hk]
      have hlen : xs.length ≤ k := by
        have := Int.not_lt.mp hk
        exact_mod_cast this
      rw [List.drop_eq_nil_of_le hlen]
      rfl

/-- A `[:]` slice (all three bounds defaulted) selects the whole array. -/
theorem pySliceList_all {α : Type} (xs : List α) :
    pySliceList xs 0 (xs.length : Int) 1 = xs := by
  have hn : (0:Int) ≤ (xs.length : Int) := Int.natCast_nonneg _
  unfold pySliceList
  simp only [if_pos (by norm_num : (0:Int) < 1),
    if_neg (by omega : ¬ (0:Int) < 0),
    if_neg (by omega : ¬ (xs.length : Int) < 0), min_self, min_eq_left hn]
  have hc := collect_get xs (xs.length + 1) 0 (by omega)
  simpa using hc

/-- Resolving an empty tail against each element of a scalar (integer)
array returns the elements unchanged. -/
theorem resolveEach_ints (xs : List Int) :
    resolveEach (xs.map .int) [] = .ok (xs.map .int) := by
  induction xs with
  | nil =>
    rw [show (([] : List Int).map Value.int) = [] from rfl, resolveEach.eq_def]
  | cons x xs ih =>
    rw [show ((x :: xs).map Value.int) = Value.int x :: xs.map Value.int from rfl]
    rw [resolveEach.eq_def]
    show (match resolvePath (.int x) [] with
      | .error e => (.error e : Except PyErr (List Value))
      | .ok r =>
        match resolveEach (xs.map .int) [] with
        | .error e => .error e
        | .ok acc => .ok (spliceOne r ++ acc)) = _
    rw [resolvePath_nil, ih]
    rfl

/-!  ## Claim theorems  -/

/-- Claim C1. The claim that resolution never raises fails on the code: a
digit-string field whose index is out of range during field descent
raises an uncaught `IndexError` (line 39 has no `try`), and a
single-index bracket applied to an object raises a `KeyError` that the
`except (ValueError, TypeError, IndexError)` clause does not catch. -/
theorem c1_resolution_can_raise :
    parse_response (.arr [.int 1, .int 2]) (.single (chars "5[0]")) =
      .error .indexError ∧
    parse_response (.obj []) (.single (chars "[0]")) = .error .keyError := by
  constructor <;>
    simp +decide [parse_response, tokenize, resolvePath, applyIndex, resolveEach,
      descend, sliceBounds, boundOr, pySliceItems, pySliceList, collectIdx, pyLen,
      pyGetItem, pyInt, pyIsDigitStr, digitsVal, pyStrip, pyIsSpace, pySplitOn,
      findBracket, findBracketAux, grabContent, objLookup, dictGet, isNull, isArr,
      arrElems, spliceOne, catchVT, catchVTI, catchVI, chars, List.foldl]

/-- Claim C7. Base case of resolution: an empty segment list returns the
value unchanged, and a null value is returned unchanged even when
segments remain. -/
theorem c7_base_case :
    (∀ obj : Value, resolvePath obj [] = .ok obj) ∧
    (∀ parts : List (List Char), resolvePath .null parts = .ok .null) :=
  ⟨resolvePath_nil, resolvePath_null⟩

/-- Claim C8. Resolution is a deterministic read-only function of
(value, paths): the embedding of the core is pure, so equal inputs give
equal outputs, and resolving `"a.b"` against `{a:{b:5}}` yields 5 on
both of two invocations. -/
theorem c8_pure_deterministic :
    (∀ (data : Value) (p : PathsArg), parse_response data p = parse_response data p) ∧
    parse_response exAB (.single (chars "a.b")) = .ok (.int 5) ∧
    parse_response exAB (.single (chars "a.b")) = .ok (.int 5) := by
  refine ⟨fun _ _ => rfl, ?_, ?_⟩ <;>
    simp +decide [parse_response, tokenize, resolvePath, applyIndex, resolveEach,
      descend, sliceBounds, boundOr, pySliceItems, pySliceList, collectIdx, pyLen,
      pyGetItem, pyInt, pyIsDigitStr, digitsVal, pyStrip, pyIsSpace, pySplitOn,
      findBracket, findBracketAux, grabContent, objLookup, dictGet, isNull, isArr,
      arrElems, spliceOne, catchVT, catchVTI, catchVI, chars, exAB, List.foldl]

/-- Claim C9. Wildcard and slice expansion do not filter failed elements:
an element whose tail resolution comes back absent contributes a null
entry, so `"[*].x"` (and `"[0:2].x"`) over `[{"x":1},{}]` yields
`[1, null]`. -/
theorem c9_absent_elements_become_null :
    parse_response exHole (.single (chars "[*].x")) = .ok (.arr [.int 1, .null]) ∧
    parse_response exHole (.single (chars "[0:2].x")) = .ok (.arr [.int 1, .null]) := by
  constructor <;>
    simp +decide [parse_response, tokenize, resolvePath, applyIndex, resolveEach,
      descend, sliceBounds, boundOr, pySliceItems, pySliceList, collectIdx, pyLen,
      pyGetItem, pyInt, pyIsDigitStr, digitsVal, pyStrip, pyIsSpace, pySplitOn,
      findBracket, findBracketAux, grabContent, objLookup, dictGet, isNull, isArr,
      arrElems, spliceOne, catchVT, catchVTI, catchVI, chars, exHole, List.foldl]

/-- Claim C10. A path string that is empty or made only of dots and
whitespace tokenizes to zero segments, and the entry point then returns
the whole input value unchanged. -/
theorem c10_trivial_path_identity (data : Value) (s : List Char)
    (h : ∀ c ∈ s, c = '.' ∨ pyIsSpace c = true) :
    parse_response data (.single s) = .ok data := by
  show resolvePath data (tokenize s) = .ok data
  rw [tokenize_trivial h]
  exact resolvePath_nil data

/-- Witness for C10: `" . . "` against `{"a":{"b":5}}` returns the whole
object. -/
theorem c10_witness :
    parse_response exAB (.single (chars " . . ")) = .ok exAB :=
  c10_trivial_path_identity exAB (chars " . . ") (by decide)

/-- Claim C2, amended. Wildcard expansion maps the tail resolution over
the array's elements and flattens exactly one level — a per-element
result that is itself a sequence is spliced, otherwise the single result
is appended.  Hence `"[*]"` with no tail over `[[1,2],[3,4]]` returns
`[1,2,3,4]` (each per-element result is itself a sequence and is
spliced), and `"[*].x"` over `[{"x":1},{"x":2}]` returns `[1,2]`. -/
theorem c2_wildcard_flatten :
    (∀ (l : List Value) (rem : List (List Char)),
        resolvePath (.arr l) (chars "[*]" :: rem) =
          (l.mapM (fun v => resolvePath v rem)).map
            (fun rs => Value.arr (flattenOne rs))) ∧
    parse_response (.arr [.arr [.int 1, .int 2], .arr [.int 3, .int 4]])
        (.single (chars "[*]")) = .ok (.arr [.int 1, .int 2, .int 3, .int 4]) ∧
    parse_response exXs (.single (chars "[*].x")) = .ok (.arr [.int 1, .int 2]) := by
  refine ⟨?_, ?_, ?_⟩
  · intro l rem
    conv_lhs => rw [resolvePath.eq_def]
    show applyIndex (.arr l) ['*'] rem = _
    rw [applyIndex.eq_def, if_pos rfl]
    show (match resolveEach l rem with
      | .error e => (.error e : Except PyErr Value)
      | .ok results => .ok (.arr results)) = _
    rw [resolveEach_eq_mapM]
    rcases h : l.mapM (fun v => resolvePath v rem) with e | rs <;> rfl
  · simp +decide [parse_response, tokenize, resolvePath, applyIndex, resolveEach,
      descend, sliceBounds, boundOr, pySliceItems, pySliceList, collectIdx, pyLen,
      pyGetItem, pyInt, pyIsDigitStr, digitsVal, pyStrip, pyIsSpace, pySplitOn,
      findBracket, findBracketAux, grabContent, objLookup, dictGet, isNull, isArr,
      arrElems, spliceOne, catchVT, catchVTI, catchVI, chars, List.foldl]
  · simp +decide [parse_response, tokenize, resolvePath, applyIndex, resolveEach,
      descend, sliceBounds, boundOr, pySliceItems, pySliceList, collectIdx, pyLen,
      pyGetItem, pyInt, pyIsDigitStr, digitsVal, pyStrip, pyIsSpace, pySplitOn,
      findBracket, findBracketAux, grabContent, objLookup, dictGet, isNull, isArr,
      arrElems, spliceOne, catchVT, catchVTI, catchVI, chars, exXs, List.foldl]

/-- Counterexample for C2. The claim as stated says `"[*]"` with no
further tail over `[[1,2],[3,4]]` returns the array unchanged; the code
instead splices each per-element result (itself a sequence) and returns
`[1,2,3,4]`. -/
theorem c2_counterexample :
    parse_response (.arr [.arr [.int 1, .int 2], .arr [.int 3, .int 4]])
        (.single (chars "[*]")) ≠
      .ok (.arr [.arr [.int 1, .int 2], .arr [.int 3, .int 4]]) := by
  simp +decide [parse_response, tokenize, resolvePath, applyIndex, resolveEach,
    descend, sliceBounds, boundOr, pySliceItems, pySliceList, collectIdx, pyLen,
    pyGetItem, pyInt, pyIsDigitStr, digitsVal, pyStrip, pyIsSpace, pySplitOn,
    findBracket, findBracketAux, grabContent, objLookup, dictGet, isNull, isArr,
    arrElems, spliceOne, catchVT, catchVTI, catchVI, chars, List.foldl]

/-- Claim C3. Slice semantics: `"[1:3]"` over `[10,20,30,40,50]` yields
`[20,30]`; `"[::2]"` yields `[10,30,50]`; negative indices follow
standard ordered-sequence rules (`"[-2:]"` yields `[40,50]`); a bound
that fails integer parsing (`"[a:b]"`) resolves to absent against every
value; and the fully defaulted slice `"[:]"` (start 0, end array length,
step 1) selects every element of an integer array in order. -/
theorem c3_slice_semantics :
    parse_response ex5 (.single (chars "[1:3]")) = .ok (.arr [.int 20, .int 30]) ∧
    parse_response ex5 (.single (chars "[::2]")) =
      .ok (.arr [.int 10, .int 30, .int 50]) ∧
    parse_response ex5 (.single (chars "[-2:]")) = .ok (.arr [.int 40, .int 50]) ∧
    (∀ (obj : Value) (rest : List (List Char)),
        resolvePath obj (chars "[a:b]" :: rest) = .ok .null) ∧
    (∀ xs : List Int,
        parse_response (.arr (xs.map .int)) (.single (chars "[:]")) =
          .ok (.arr (xs.map .int))) := by
  refine ⟨?_, ?_, ?_, ?_, ?_⟩
  · simp +decide [parse_response, tokenize, resolvePath, applyIndex, resolveEach,
      descend, sliceBounds, boundOr, pySliceItems, pySliceList, collectIdx, pyLen,
      pyGetItem, pyInt, pyIsDigitStr, digitsVal, pyStrip, pyIsSpace, pySplitOn,
      findBracket, findBracketAux, grabContent, objLookup, dictGet, isNull, isArr,
      arrElems, spliceOne, catchVT, catchVTI, catchVI, chars, ex5, List.foldl]
  · simp +decide [parse_response, tokenize, resolvePath, applyIndex, resolveEach,
      descend, sliceBounds, boundOr, pySliceItems, pySliceList, collectIdx, pyLen,
      pyGetItem, pyInt, pyIsDigitStr, digitsVal, pyStrip, pyIsSpace, pySplitOn,
      findBracket, findBracketAux, grabContent, objLookup, dictGet, isNull, isArr,
      arrElems, spliceOne, catchVT, catchVTI, catchVI, chars, ex5, List.foldl]
  · simp +decide [parse_response, tokenize, resolvePath, applyIndex, resolveEach,
      descend, sliceBounds, boundOr, pySliceItems, pySliceList, collectIdx, pyLen,
      pyGetItem, pyInt, pyIsDigitStr, digitsVal, pyStrip, pyIsSpace, pySplitOn,
      findBracket, findBracketAux, grabContent, objLookup, dictGet, isNull, isArr,
      arrElems, spliceOne, catchVT, catchVTI, catchVI, chars, ex5, List.foldl]
  · intro obj rest
    by_cases hnull : obj = .null
    · subst hnull
      rw [resolvePath_null]
    · have hnn := isNull_eq_false hnull
      conv_lhs => rw [resolvePath.eq_def]
      simp only [hnn, Bool.false_eq_true, if_false]
      show applyIndex obj (chars "a:b") rest = .ok .null
      rw [applyIndex.eq_def]
      rfl
  · intro xs
    show resolvePath (.arr (xs.map .int)) (tokenize (chars "[:]")) = _
    rw [show tokenize (chars "[:]") = [chars "[:]"] from rfl]
    conv_lhs => rw [resolvePath.eq_def]
    show applyIndex (.arr (xs.map .int)) (chars ":") [] = _
    rw [applyIndex.eq_def]
    show catchVT
        (match resolveEach (pySliceList (xs.map Value.int) 0
            ((xs.map Value.int).length : Int) 1) [] with
          | .error e => .error e
          | .ok results => .ok (.arr results)) = .ok (.arr (xs.map .int))
    rw [pySliceList_all, resolveEach_ints]
    rfl

/-- Claim C4, amended. The defensive re-split applies only to a
bracket-free segment that direct object-key matching does not resolve,
and then prepends the raw dot-split pieces; it coincides with up-front
tokenization exactly when every dot-piece of the segment is nonempty and
carries no surrounding whitespace. -/
theorem c4_resplit_equiv (obj : Value) (cur : List Char) (rest : List (List Char))
    (hb : findBracket cur = none)
    (hdot : '.' ∈ cur)
    (hclean : ∀ p ∈ pySplitOn '.' cur, p ≠ [] ∧ pyStrip p = p)
    (hkey : ∀ kvs, obj = .obj kvs → dictGet kvs cur = none) :
    resolvePath obj (cur :: rest) = resolvePath obj (tokenize cur ++ rest) := by
  rw [tokenize_of_clean hclean]
  by_cases hnull : obj = .null
  · subst hnull
    rw [resolvePath_null, resolvePath_null]
  · have hlookup : objLookup obj cur = none := by
      cases obj with
      | obj kvs => exact hkey kvs rfl
      | null => rfl
      | bool b => rfl
      | int n => rfl
      | str s => rfl
      | arr xs => rfl
    have hdig : (isArr obj && pyIsDigitStr cur) = false := by
      rw [pyIsDigitStr_no_dot hdot, Bool.and_false]
    exact resolvePath_resplit (isNull_eq_false hnull) hb hlookup hdig hdot

/-- Witness for C4: the dotted pre-split segment `["a.b"]` against
`{"a":{"b":5}}` resolves like the tokenized path. -/
theorem c4_witness :
    resolvePath exAB [chars "a.b"] =
      resolvePath exAB (tokenize (chars "a.b") ++ []) :=
  c4_resplit_equiv exAB (chars "a.b") [] rfl (by decide) (by decide)
    (fun kvs h => by
      injection h with h2
      subst h2
      rfl)

/-- Counterexample for C4. As stated (re-split "equivalent to up-front
tokenization" for every dotted segment), the claim fails: the pre-split
segment list `["a..b"]` over `{"a":{"b":5}}` resolves to absent — the
lazy re-split keeps the empty piece that tokenization would strip and
drop — while the fully tokenized path `"a..b"` resolves to 5. -/
theorem c4_counterexample :
    resolvePath exAB [chars "a..b"] = .ok .null ∧
    resolvePath exAB (tokenize (chars "a..b")) = .ok (.int 5) ∧
    resolvePath exAB [chars "a..b"] ≠ resolvePath exAB (tokenize (chars "a..b")) ∧
    resolvePath (.obj [(chars "a.b", .int 5)]) [chars "a.b"] = .ok (.int 5) ∧
    resolvePath (.obj [(chars "a.b", .int 5)]) (tokenize (chars "a.b")) = .ok .null := by
  refine ⟨?_, ?_, ?_, ?_, ?_⟩ <;>
    simp +decide [parse_response, tokenize, resolvePath, applyIndex, resolveEach,
      descend, sliceBounds, boundOr, pySliceItems, pySliceList, collectIdx, pyLen,
      pyGetItem, pyInt, pyIsDigitStr, digitsVal, pyStrip, pyIsSpace, pySplitOn,
      findBracket, findBracketAux, grabContent, objLookup, dictGet, isNull, isArr,
      arrElems, spliceOne, catchVT, catchVTI, catchVI, chars, exAB, List.foldl]

/-- Claim C5. For a bracketed segment with a non-empty field, when the
current value is neither an object containing that field nor an array
with a digit-string (non-negative integer literal) field, field descent
is a silent no-op: resolution does not abort, and the segment's index
operation is applied to the original value. -/
theorem c5_field_descent_noop (obj : Value) (cur pre expr : List Char)
    (rest : List (List Char))
    (hb : findBracket cur = some (pre, expr))
    (_hf : pyStrip pre ≠ [])
    (hobj : ∀ kvs, obj = .obj kvs → dictGet kvs (pyStrip pre) = none)
    (harr : ∀ xs, obj = .arr xs → pyIsDigitStr (pyStrip pre) = false) :
    resolvePath obj (cur :: rest) = applyIndex obj expr rest := by
  by_cases hnull : obj = .null
  · subst hnull
    rw [resolvePath_null, applyIndex_null]
  · have hnn := isNull_eq_false hnull
    have hd := descend_noop hobj harr
    conv_lhs => rw [resolvePath.eq_def]
    simp only [hnn, Bool.false_eq_true, if_false, hb, hd]

/-- Witness for C5: segment `"x[0]"` against the scalar 7 — the field
`"x"` neither matches an object key nor an array index, so the `[0]`
operation applies to 7 itself. -/
theorem c5_witness :
    resolvePath (.int 7) [chars "x[0]"] = applyIndex (.int 7) (chars "0") [] :=
  c5_field_descent_noop (.int 7) (chars "x[0]") (chars "x") (chars "0") [] rfl
    (by decide) (fun kvs h => Value.noConfusion h)
    (fun xs h => Value.noConfusion h)

/-- Claim C6. The batch entry point is shape- and order-preserving: a
single path string returns the resolver's natural result with no
wrapping; a list of paths resolves each path independently through the
same single-path resolution, one entry per input path in input order;
`["a","b"]` over `{"a":1,"b":2}` yields `[1,2]`, and an unresolvable
middle path contributes null without affecting its siblings. -/
theorem c6_batch_shape :
    (∀ (data : Value) (s : List Char),
        parse_response data (.single s) = resolvePath data (tokenize s)) ∧
    (∀ (data : Value) (ps : List (List Char)),
        parse_response data (.many ps) =
          (ps.mapM (fun p => parse_response data (.single p))).map Value.arr) ∧
    parse_response exBatch (.many [chars "a", chars "b"]) =
      .ok (.arr [.int 1, .int 2]) ∧
    parse_response exBatch (.many [chars "a", chars "zz", chars "b"]) =
      .ok (.arr [.int 1, .null, .int 2]) := by
  refine ⟨fun _ _ => rfl, fun _ _ => rfl, ?_, ?_⟩ <;>
    simp +decide [parse_response, tokenize, resolvePath, applyIndex, resolveEach,
      descend, sliceBounds, boundOr, pySliceItems, pySliceList, collectIdx, pyLen,
      pyGetItem, pyInt, pyIsDigitStr, digitsVal, pyStrip, pyIsSpace, pySplitOn,
      findBracket, findBracketAux, grabContent, objLookup, dictGet, isNull, isArr,
      arrElems, spliceOne, catchVT, catchVTI, catchVI, chars, exBatch,
      List.mapM, List.mapM.loop, Except.instMonad, Except.bind, Except.pure,
      Except.map, List.foldl]

end APIKernal
